import Mathlib

/-!
# Verification of the link-metadata subsystem

Shallow embedding of the metadata-extraction and batch-refresh code of the
link-canvas repository:

* `src/lib/utils.ts` (`getDomainFromUrl`)
* `src/lib/metadata-fetcher.ts` (`fetchMetadata`)
* `src/lib/metadata-refresher.ts` (`needsMetadataRefresh`, `fetchLinkMetadata`,
  `processBatch`, `refreshMetadata`)
* `src/store/canvas-store.ts` (`updateLink`)
* the `/api/metadata` route handler (`GET`, `fetchYouTubeMetadata` and the
  platform-dispatch chain)

Network I/O, the HTML parser and the oEmbed endpoints are external effects;
they are modelled as explicit outcome parameters ("oracles") passed to the
embedded functions.  JavaScript string primitives (`includes`, `replace`,
`split`, `encodeURIComponent`) and the WHATWG `URL` constructor are modelled
by executable Lean functions below; each model notes its scope.
-/

namespace LinkCanvas

/-! ## JavaScript string primitives -/

/-- `pat` occurs as a contiguous run inside the character list. -/
def listHasInfix (pat : List Char) : List Char → Bool
  | [] => pat.isEmpty
  | c :: cs => pat.isPrefixOf (c :: cs) || listHasInfix pat cs

/-- JS `String.prototype.includes`: `pat` occurs as a contiguous substring. -/
def jsIncludes (s pat : String) : Bool :=
  listHasInfix pat.data s.data

/-- Core of JS `String.prototype.replace` with a plain-string pattern:
replace only the FIRST occurrence of `pat` (empty pattern matches at the
start, as in JS). -/
def jsReplaceOnceAux (pat repl : List Char) : List Char → List Char
  | [] => if pat = [] then repl else []
  | c :: cs =>
    if pat.isPrefixOf (c :: cs) then repl ++ (c :: cs).drop pat.length
    else c :: jsReplaceOnceAux pat repl cs

/-- JS `s.replace(pat, repl)` for a plain-string `pat`: replaces the first
occurrence only. -/
def jsReplace (pat repl s : String) : String :=
  String.mk (jsReplaceOnceAux pat.data repl.data s.data)

/-- JS `a || b` on strings: `b` when `a` is the empty string (falsy). -/
def jsOr (a b : String) : String :=
  if a = "" then b else a

/-- Core of JS `String.prototype.split` with a non-empty string separator.
The fuel argument (instantiated with the subject length) makes the
recursion structural; every step consumes at least one character, so the
fuel-0 case is unreachable. -/
def jsSplitAux (sep : List Char) : Nat → List Char → List Char → List (List Char)
  | _, [], acc => [acc.reverse]
  | 0, s, acc => [acc.reverse ++ s]
  | fuel + 1, c :: cs, acc =>
    if sep.isPrefixOf (c :: cs) then
      acc.reverse :: jsSplitAux sep fuel ((c :: cs).drop sep.length) []
    else
      jsSplitAux sep fuel cs (c :: acc)

/-- JS `s.split(sep)` for a non-empty string separator (the only shape the
code uses); an empty separator is mapped to `[s]`, which no call site
exercises. -/
def jsSplit (s sep : String) : List String :=
  if sep.data = [] then [s]
  else (jsSplitAux sep.data s.data.length s.data []).map String.mk

/-- ASCII letter test used by the URL-scheme model. -/
def isAsciiLetter (c : Char) : Bool :=
  ('a' ≤ c && c ≤ 'z') || ('A' ≤ c && c ≤ 'Z')

/-- ASCII digit test used by the URL-scheme model. -/
def isAsciiDigit (c : Char) : Bool :=
  '0' ≤ c && c ≤ '9'

/-! ## Model of the WHATWG `URL` constructor

The TypeScript code calls `new URL(url)` for validation, for `hostname` and
for `searchParams`.  `parseURL` models the constructor for hierarchical
`scheme://…` URLs: it extracts the scheme, the hostname (userinfo and port
stripped, lowercased) and the query string.  Simplifications of the model:
URLs without `//` after the scheme are rejected, hostnames are only checked
for non-emptiness and absence of spaces, and no percent- or IDN-decoding is
performed.  All concrete URLs exercised by the theorems below are inside
this scope. -/

structure URLRec where
  scheme : String
  hostname : String
  search : String
deriving Repr, DecidableEq

/-- A character that may appear in a URL scheme. -/
def isSchemeChar (c : Char) : Bool :=
  isAsciiLetter c || isAsciiDigit c || c = '+' || c = '-' || c = '.'

/-- Model of `new URL(s)`: `none` models the constructor throwing. -/
def parseURL (s : String) : Option URLRec :=
  let cs := s.data
  let scheme := cs.takeWhile (fun c => c ≠ ':')
  match cs.drop scheme.length with
  | [] => none
  | _ :: afterColon =>
    if scheme = [] then none
    else if !(isAsciiLetter (scheme.headD 'a') && scheme.all isSchemeChar) then none
    else
      match afterColon with
      | '/' :: '/' :: afterSlashes =>
        let authority := afterSlashes.takeWhile (fun c => c ≠ '/' && c ≠ '?' && c ≠ '#')
        let afterAuth := afterSlashes.drop authority.length
        let hostPort := (authority.reverse.takeWhile (fun c => c ≠ '@')).reverse
        let hostname := hostPort.takeWhile (fun c => c ≠ ':')
        if hostname = [] then none
        else if hostname.any (fun c => c = ' ') then none
        else
          let search :=
            match afterAuth.dropWhile (fun c => c ≠ '?') with
            | [] => []
            | _ :: t => t.takeWhile (fun c => c ≠ '#')
          some ⟨String.mk (scheme.map Char.toLower),
                String.mk (hostname.map Char.toLower),
                String.mk search⟩
      | _ => none

/-- Model of `url.searchParams.get(key)` on the query string kept by
`parseURL` (no percent-decoding; first matching key wins, as in JS). -/
def searchParamsGet (search key : String) : Option String :=
  ((jsSplit search "&").filterMap (fun kv =>
    match jsSplit kv "=" with
    | [] => none
    | k :: rest =>
      if k = key then
        some (String.mk (List.intercalate "=".data (rest.map String.data)))
      else none)).head?

/-! ## `LinkMetadata` and domain derivation -/

/-- `LinkMetadata` from `src/types/index.ts` (and the identical interface in
the route handler).  Optional fields are `Option`; an absent/`undefined`
field is `none`. -/
structure LinkMetadata where
  url : String
  title : String
  description : Option String
  imageUrl : Option String
  favicon : Option String
  domain : String
deriving Repr, DecidableEq

/-- `getDomainFromUrl` from `src/lib/utils.ts`:
`new URL(url).hostname.replace('www.', '')`, returning `''` when the URL
constructor throws. -/
def getDomainFromUrl (url : String) : String :=
  match parseURL url with
  | some u => jsReplace "www." "" u.hostname
  | none => ""

/-- The Google favicon-service URL used as the default favicon, keyed by
domain (shared by `metadata-fetcher.ts` and the route handler). -/
def defaultFaviconService (domain : String) : String :=
  "https://www.google.com/s2/favicons?domain=" ++ domain ++ "&sz=64"

/-! ## `fetchMetadata` (src/lib/metadata-fetcher.ts) -/

/-- Outcome of the `fetch('/api/metadata?...')` call in `fetchMetadata`,
including response-status check and JSON decoding: `success m` is an `ok`
response whose body decoded to `m`; `failure` is any throw inside the `try`
(network error, non-2xx status, or body-decoding error). -/
inductive ClientFetchOutcome where
  | success (m : LinkMetadata)
  | failure
deriving Repr, DecidableEq

/-- The domain computed inside the `catch` of `fetchMetadata`:
`new URL(url).hostname.replace('www.', '')`, or `'unknown'` when the URL
constructor throws. -/
def clientFallbackDomain (url : String) : String :=
  match parseURL url with
  | some u => jsReplace "www." "" u.hostname
  | none => "unknown"

/-- `fetchMetadata` from `src/lib/metadata-fetcher.ts`: return the decoded
metadata, or on any internal failure the basic fallback record keyed by
`clientFallbackDomain`. -/
def fetchMetadata (eff : ClientFetchOutcome) (url : String) : LinkMetadata :=
  match eff with
  | .success m => m
  | .failure =>
    let domain := clientFallbackDomain url
    { url := url
      title := domain
      description := none
      imageUrl := none
      favicon := some (defaultFaviconService domain)
      domain := domain }

/-! ## `encodeURIComponent` model -/

/-- UTF-8 bytes of a character (plain `Nat`s in `0 … 255`). -/
def utf8Bytes (c : Char) : List Nat :=
  let n := c.toNat
  if n < 128 then [n]
  else if n < 2048 then [192 + n / 64, 128 + n % 64]
  else if n < 65536 then [224 + n / 4096, 128 + (n / 64) % 64, 128 + n % 64]
  else [240 + n / 262144, 128 + (n / 4096) % 64, 128 + (n / 64) % 64, 128 + n % 64]

/-- Bytes left unescaped by JS `encodeURIComponent`:
`A-Z a-z 0-9 - _ . ! ~ * ( )` and the apostrophe (byte 39). -/
def isUnreservedByte (b : Nat) : Bool :=
  (65 ≤ b && b ≤ 90) || (97 ≤ b && b ≤ 122) || (48 ≤ b && b ≤ 57) ||
  b = 45 || b = 95 || b = 46 || b = 33 || b = 126 || b = 42 ||
  b = 39 || b = 40 || b = 41

/-- Uppercase hexadecimal digit for `n < 16`. -/
def hexDigitChar (n : Nat) : Char :=
  if n < 10 then Char.ofNat (48 + n) else Char.ofNat (55 + n)

/-- Model of JS `encodeURIComponent`: percent-encode every UTF-8 byte
outside the unreserved set, with uppercase hex digits. -/
def encodeURIComponent (s : String) : String :=
  String.mk (((s.data.map utf8Bytes).flatten).foldr
    (fun n acc =>
      if isUnreservedByte n then Char.ofNat n :: acc
      else '%' :: hexDigitChar (n / 16) :: hexDigitChar (n % 16) :: acc) [])

/-! ## Platform classification (route handler `GET`, enhanced version)

The route handler dispatches on `url.includes(...)` checks, in source order:
YouTube, then Reddit, then X/Twitter, then the generic extractor.  The
checks run on the FULL url string (not on the parsed hostname). -/

/-- The four extraction strategies of the spec's classifier. -/
inductive Strategy where
  | videoHost
  | forumDiscussion
  | socialShortForm
  | generic
deriving Repr, DecidableEq

/-- The dispatch chain of the route handler's `GET`, transcribed from the
source `if (url.includes(...)) ...` cascade. -/
def classifyUrl (url : String) : Strategy :=
  if jsIncludes url "youtube.com" || jsIncludes url "youtu.be" then
    .videoHost
  else if jsIncludes url "reddit.com" || jsIncludes url "www.reddit.com" then
    .forumDiscussion
  else if jsIncludes url "x.com" || jsIncludes url "twitter.com" ||
          jsIncludes url "www.x.com" || jsIncludes url "www.twitter.com" then
    .socialShortForm
  else
    .generic

/-- Modelled from the spec: "Classification is pure host-substring
matching, evaluated in a fixed priority order (VideoHost → ForumDiscussion
→ SocialShortForm → Generic fallback); first match wins."  This comparison
definition runs the same pattern chain against the HOST only; it exists to
be compared with `classifyUrl`, which the code runs on the full URL. -/
def specHostSubstringClassify (hostname : String) : Strategy :=
  if jsIncludes hostname "youtube.com" || jsIncludes hostname "youtu.be" then
    .videoHost
  else if jsIncludes hostname "reddit.com" || jsIncludes hostname "www.reddit.com" then
    .forumDiscussion
  else if jsIncludes hostname "x.com" || jsIncludes hostname "twitter.com" ||
          jsIncludes hostname "www.x.com" || jsIncludes hostname "www.twitter.com" then
    .socialShortForm
  else
    .generic

/-- The substring patterns of the dispatch chain, in priority order. -/
def strategyPatterns : List (Strategy × List String) :=
  [(.videoHost, ["youtube.com", "youtu.be"]),
   (.forumDiscussion, ["reddit.com", "www.reddit.com"]),
   (.socialShortForm, ["x.com", "twitter.com", "www.x.com", "www.twitter.com"])]

/-- First-match-wins classification over `strategyPatterns`, matching each
pattern as a substring of the full URL string. -/
def firstMatchClassify (url : String) : Strategy :=
  match strategyPatterns.find? (fun p => p.2.any (fun pat => jsIncludes url pat)) with
  | some p => p.1
  | none => .generic

/-! ## YouTube extractor (`fetchYouTubeMetadata`) -/

/-- Video-id extraction of `fetchYouTubeMetadata`, from its three URL
shapes: `youtu.be/` short links (`url.split('/').pop()`), canonical
`youtube.com/watch` links (`new URL(url).searchParams.get('v')`), and the
bare `v=` fragment (`url.split('v=').pop()?.split('&')[0]`).  In the watch
branch a URL that fails to parse makes the JS constructor throw; that is
the `.error` case. -/
def extractYouTubeVideoId (url : String) : Except String String :=
  if jsIncludes url "youtu.be/" then
    .ok ((jsSplit url "/").getLast?.getD "")
  else if jsIncludes url "youtube.com/watch" then
    match parseURL url with
    | some u => .ok ((searchParamsGet u.search "v").getD "")
    | none => .error "Invalid URL"
  else
    .ok (jsOr ((jsSplit ((jsSplit url "v=").getLast?.getD "") "&").headD "") "")

/-- The oEmbed request URL built by `fetchYouTubeMetadata`:
`https://www.youtube.com/oembed?url=${encodeURIComponent(url)}&format=json`. -/
def youTubeOembedUrl (url : String) : String :=
  "https://www.youtube.com/oembed?url=" ++ encodeURIComponent url ++ "&format=json"

/-- The fields of the decoded oEmbed response used by the extractor; a
missing/`undefined` JSON field is the empty string (both are falsy, and the
code only uses the fields through `||` or direct copy). -/
structure OembedData where
  title : String
  author_name : String
  thumbnail_url : String
deriving Repr, DecidableEq

/-- Outcome of the oEmbed `fetch` + JSON decode in `fetchYouTubeMetadata`. -/
inductive OembedOutcome where
  | ok (d : OembedData)
  | httpError (status : Nat)
  | netError (msg : String)
deriving Repr, DecidableEq

/-- `fetchYouTubeMetadata` from the route handler: extract a video id
(empty id throws `'Invalid YouTube URL'`), then call the oEmbed endpoint;
any failure is rethrown (`.error`) for the route's `catch` to handle. -/
def fetchYouTubeMetadata (o : OembedOutcome) (url : String) :
    Except String LinkMetadata :=
  match extractYouTubeVideoId url with
  | .error e => .error e
  | .ok videoId =>
    if videoId = "" then .error "Invalid YouTube URL"
    else
      match o with
      | .ok d =>
        .ok { url := url
              title := jsOr d.title "YouTube Video"
              description := some d.author_name
              imageUrl := some d.thumbnail_url
              favicon := some "https://www.youtube.com/favicon.ico"
              domain := "youtube.com" }
      | .httpError s => .error ("YouTube oEmbed error: " ++ toString s)
      | .netError m => .error m

/-! ## The `GET /api/metadata` route handler -/

/-- Body of a route response: either a metadata record or an error object. -/
inductive GETBody where
  | metadata (m : LinkMetadata)
  | error (msg : String)
deriving Repr, DecidableEq

/-- An HTTP response of the route handler. -/
structure GETResponse where
  status : Nat
  body : GETBody
deriving Repr, DecidableEq

/-- External effects of one `GET` invocation.  `fetchRedditMetadata` and
`fetchXMetadata` catch all of their own failures and always return a
metadata record, so their outcome is a plain `LinkMetadata`; the YouTube
extractor rethrows (`OembedOutcome`), and the generic scrape path may throw
(`Except`). -/
structure RouteOracle where
  youtube : OembedOutcome
  redditResult : LinkMetadata
  xResult : LinkMetadata
  generic : Except String LinkMetadata
deriving Repr

/-- The `catch` branch of `GET`: re-read the `url` parameter
(`searchParams.get('url') || ''`), derive a best-effort domain and return a
basic metadata record with status 200. -/
def serverFallback (urlParam : String) : LinkMetadata :=
  let domain :=
    match parseURL urlParam with
    | some u => jsReplace "www." "" u.hostname
    | none => "unknown"
  { url := urlParam
    title := domain
    description := none
    imageUrl := none
    favicon := some (defaultFaviconService domain)
    domain := domain }

/-- The dispatch-and-extract part of the `try` block of `GET` (after
validation): run the matching extractor; a `.error` models an exception
reaching the route's `catch`. -/
def routeResult (d : RouteOracle) (url : String) : Except String LinkMetadata :=
  match classifyUrl url with
  | .videoHost => fetchYouTubeMetadata d.youtube url
  | .forumDiscussion => .ok d.redditResult
  | .socialShortForm => .ok d.xResult
  | .generic => d.generic

/-- The enhanced `GET` route handler.  `urlParam` models
`searchParams.get('url')` (`none` = parameter missing, `some ''` =
parameter present with an empty value; both are falsy in the `!url`
check).  `NextResponse.json(x)` without an explicit status is status 200. -/
def GET (urlParam : Option String) (d : RouteOracle) : GETResponse :=
  match urlParam with
  | none => ⟨400, .error "URL parameter is required"⟩
  | some url =>
    if url = "" then ⟨400, .error "URL parameter is required"⟩
    else
      match parseURL url with
      | none => ⟨400, .error "Invalid URL format"⟩
      | some _ =>
        match routeResult d url with
        | .ok m => ⟨200, .metadata m⟩
        | .error _ => ⟨200, .metadata (serverFallback url)⟩

/-! ## `Link` and the store's `updateLink`

`Link` from `src/types/index.ts`, extended with the two refresh-tracking
fields read and written by `src/lib/metadata-refresher.ts`
(`metadataFetchedAt`, an ISO timestamp modelled as epoch milliseconds, and
the `needsMetadataRefresh` flag; an absent/`undefined` flag is falsy and is
modelled as `false`). -/

structure Link where
  id : String
  url : String
  title : String
  description : Option String
  imageUrl : Option String
  favicon : Option String
  domain : String
  x : Int
  y : Int
  width : Int
  height : Int
  zIndex : Int
  metadataFetchedAt : Option Int
  needsMetadataRefresh : Bool
deriving Repr, DecidableEq

/-- A `Partial<Link>` as passed to the store's `updateLink` by the
refresher: `none` means the key is absent from the update object (so the
spread `{ ...link, ...updates }` keeps the old value), `some v` means the
key is present with value `v` (possibly `undefined`, i.e. the inner
`none`).  The refresher only ever passes these six keys. -/
structure LinkUpdates where
  title : Option String
  description : Option (Option String)
  imageUrl : Option (Option String)
  favicon : Option (Option String)
  metadataFetchedAt : Option (Option Int)
  needsMetadataRefresh : Option Bool
deriving Repr, DecidableEq

/-- The spread `{ ...link, ...updates }` in the store's `updateLink`. -/
def applyLinkUpdates (l : Link) (u : LinkUpdates) : Link :=
  { id := l.id
    url := l.url
    title := u.title.getD l.title
    description := u.description.getD l.description
    imageUrl := u.imageUrl.getD l.imageUrl
    favicon := u.favicon.getD l.favicon
    domain := l.domain
    x := l.x
    y := l.y
    width := l.width
    height := l.height
    zIndex := l.zIndex
    metadataFetchedAt := u.metadataFetchedAt.getD l.metadataFetchedAt
    needsMetadataRefresh := u.needsMetadataRefresh.getD l.needsMetadataRefresh }

/-- `updateLink` from `src/store/canvas-store.ts`: map over `canvas.links`,
replacing every link whose `id` matches with `{ ...link, ...updates }`. -/
def updateLinkList (links : List Link) (id : String) (u : LinkUpdates) : List Link :=
  links.map (fun l => if l.id = id then applyLinkUpdates l u else l)

/-! ## Refresher configuration (src/lib/metadata-refresher.ts) -/

def BATCH_SIZE : Nat := 5

def BATCH_DELAY : Nat := 1000

def RETRY_DELAYS : List Nat := [1000, 2000, 4000]

def MAX_RETRIES : Nat := 3

def METADATA_STALE_DAYS : ℚ := 7

/-- `needsMetadataRefresh` from `src/lib/metadata-refresher.ts`: true when
the explicit flag is set, when metadata was never fetched, or when
`(now - metadataFetchedAt) / 86 400 000 > METADATA_STALE_DAYS` (JS number
division modelled as exact rational division). -/
def needsMetadataRefresh (now : Int) (link : Link) : Bool :=
  if link.needsMetadataRefresh then true
  else
    match link.metadataFetchedAt with
    | none => true
    | some t =>
      let metadataAge : Int := now - t
      let daysSinceMetadata : ℚ := (metadataAge : ℚ) / (1000 * 60 * 60 * 24)
      decide (daysSinceMetadata > METADATA_STALE_DAYS)

/-! ## `fetchLinkMetadata`: per-item fetch with retries

One attempt of the item fetch (`fetch('/api/metadata?...')` + status check
+ JSON decode) is an oracle from the attempt index (= the `retryCount`
argument of the source recursion) to `Except String LinkMetadata`, the
`.error` message being the caught `error.message`. -/

/-- The `{ success, metadata?, error? }` result object of the source. -/
structure FetchResult where
  success : Bool
  metadata : Option LinkMetadata
  error : Option String
deriving Repr, DecidableEq

/-- Structural core of the source's recursion
`fetchLinkMetadata(link, retryCount)`.  The extra `fuel` argument makes the
recursion structural; the caller passes `MAX_RETRIES + 1 - retryCount`,
which is exactly the number of attempts still possible, so the fuel-0 case
is unreachable.  Returns the result object, the number of attempts made,
and the list of inter-attempt delays taken
(`RETRY_DELAYS[Math.min(retryCount, RETRY_DELAYS.length - 1)]`). -/
def fetchLinkMetadataAux (oracle : Nat → Except String LinkMetadata) :
    Nat → Nat → FetchResult × Nat × List Nat
  | 0, _ => (⟨false, none, some "fuel exhausted"⟩, 0, [])
  | fuel + 1, retryCount =>
    match oracle retryCount with
    | .ok m => (⟨true, some m, none⟩, 1, [])
    | .error e =>
      if retryCount < MAX_RETRIES then
        let delay := RETRY_DELAYS.getD (min retryCount (RETRY_DELAYS.length - 1)) 0
        match fetchLinkMetadataAux oracle fuel (retryCount + 1) with
        | (r, n, ds) => (r, n + 1, delay :: ds)
      else
        (⟨false, none, some e⟩, 1, [])

/-- `fetchLinkMetadata(link, retryCount)` from the source, with the fetch
attempts supplied by `oracle`. -/
def fetchLinkMetadata (oracle : Nat → Except String LinkMetadata)
    (retryCount : Nat) : FetchResult × Nat × List Nat :=
  fetchLinkMetadataAux oracle (MAX_RETRIES + 1 - retryCount) retryCount

/-! ## Batch processing and the refresh orchestrator -/

/-- One observable callback of a refresh run, in emission order. -/
inductive REvent where
  | progress (processed total : Nat)
  | error (msg : String) (linkId : String)
  | complete (success failed : Nat)
deriving Repr, DecidableEq

/-- The `(processed, total)` arguments of the progress callbacks, in order. -/
def progressPairs (evs : List REvent) : List (Nat × Nat) :=
  evs.filterMap (fun e =>
    match e with
    | .progress p t => some (p, t)
    | _ => none)

/-- Number of completion callbacks in a run. -/
def countComplete (evs : List REvent) : Nat :=
  (evs.filterMap (fun e =>
    match e with
    | .complete s f => some (s, f)
    | _ => none)).length

/-- Number of error callbacks in a run. -/
def countError (evs : List REvent) : Nat :=
  (evs.filterMap (fun e =>
    match e with
    | .error m i => some (m, i)
    | _ => none)).length

/-- The update object of `updateLinkWithMetadata`: all six keys present,
`title` through JS `metadata.title || link.title`, the flag cleared and the
fetch time stamped with `now`. -/
def metadataUpdate (link : Link) (m : LinkMetadata) (now : Int) : LinkUpdates :=
  ⟨some (jsOr m.title link.title), some m.description, some m.imageUrl,
   some m.favicon, some (some now), some false⟩

/-- The update object applied by `processBatch` when a fetch ends in
exhausted failure: only the flag (cleared) and the fetch time (stamped). -/
def failureUpdate (now : Int) : LinkUpdates :=
  ⟨none, none, none, none, some (some now), some false⟩

/-- `result.error || 'Unknown error'` (both `undefined` and `''` falsy). -/
def jsOrOpt (o : Option String) (d : String) : String :=
  match o with
  | some m => jsOr m d
  | none => d

/-- Running state of one `processBatch` / `refreshMetadata` invocation:
the link collection held by the store, the callbacks emitted so far, the
success/failed counters and the total number of fetch attempts made. -/
structure BatchResult where
  state : List Link
  events : List REvent
  success : Nat
  failed : Nat
  attempts : Nat
deriving Repr, DecidableEq

/-- One iteration of the `for (const link of links)` loop of
`processBatch` (`total` is `links.length` of the batch).  A successful
fetch applies `updateLinkWithMetadata`; a failed one applies the
flag-clearing update and fires the error callback; either way the progress
callback fires with `successCount + failedCount` afterwards.  The `catch`
around the loop body is unreachable (`fetchLinkMetadata` and the store
update never throw) and is not modelled. -/
def processBatchStep (oracle : Link → Nat → Except String LinkMetadata)
    (now : Int) (total : Nat) (acc : BatchResult) (link : Link) : BatchResult :=
  match fetchLinkMetadata (oracle link) 0 with
  | (r, n, _) =>
    match r.success, r.metadata with
    | true, some m =>
      { state := updateLinkList acc.state link.id (metadataUpdate link m now)
        events := acc.events ++ [.progress (acc.success + 1 + acc.failed) total]
        success := acc.success + 1
        failed := acc.failed
        attempts := acc.attempts + n }
    | _, _ =>
      { state := updateLinkList acc.state link.id (failureUpdate now)
        events := acc.events ++
          [.error (jsOrOpt r.error "Unknown error") link.id,
           .progress (acc.success + (acc.failed + 1)) total]
        success := acc.success
        failed := acc.failed + 1
        attempts := acc.attempts + n }

/-- `processBatch(links, options)` over store state `state`. -/
def processBatch (oracle : Link → Nat → Except String LinkMetadata)
    (now : Int) (state : List Link) (batch : List Link) : BatchResult :=
  batch.foldl (processBatchStep oracle now batch.length)
    ⟨state, [], 0, 0, 0⟩

/-- Structural chunking helper; the fuel argument (instantiated with the
list length) makes the recursion structural. -/
def chunkListAux (n : Nat) : Nat → List Link → List (List Link)
  | 0, _ => []
  | _, [] => []
  | fuel + 1, l@(_ :: _) =>
    if n = 0 then [l]
    else l.take n :: chunkListAux n fuel (l.drop n)

/-- The batch slicing of `refreshMetadata`'s
`for (let i = 0; i < n; i += BATCH_SIZE) slice(i, i + BATCH_SIZE)` loop. -/
def chunkList (n : Nat) (l : List Link) : List (List Link) :=
  chunkListAux n l.length l

/-- One iteration of the batch loop of `refreshMetadata`: process the next
slice against the current store state and accumulate events and counters. -/
def refreshFoldStep (oracle : Link → Nat → Except String LinkMetadata)
    (now : Int) (acc : BatchResult) (batch : List Link) : BatchResult :=
  match processBatch oracle now acc.state batch with
  | b => ⟨b.state, acc.events ++ b.events, acc.success + b.success,
          acc.failed + b.failed, acc.attempts + b.attempts⟩

/-- `refreshMetadata(links, options)` from the source: filter the
candidates once, short-circuit with `onComplete(0, 0)` when none need a
refresh, otherwise process the candidate list in `BATCH_SIZE` chunks
sequentially (the inter-batch `BATCH_DELAY` sleep emits no callback) and
finish with `onComplete(totalSuccess, totalFailed)`.  `state` is the store's
link collection; `links` is the argument collection being refreshed. -/
def refreshMetadata (oracle : Link → Nat → Except String LinkMetadata)
    (now : Int) (state : List Link) (links : List Link) : BatchResult :=
  let linksNeedingRefresh := links.filter (needsMetadataRefresh now)
  if linksNeedingRefresh.length = 0 then
    ⟨state, [.complete 0 0], 0, 0, 0⟩
  else
    let r := (chunkList BATCH_SIZE linksNeedingRefresh).foldl
      (refreshFoldStep oracle now) ⟨state, [], 0, 0, 0⟩
    ⟨r.state, r.events ++ [.complete r.success r.failed],
     r.success, r.failed, r.attempts⟩

/-! ## Auxiliary lemmas on the string model -/

lemma jsReplaceOnceAux_prefix (pat repl rest : List Char) (hne : pat ≠ []) :
    jsReplaceOnceAux pat repl (pat ++ rest) = repl ++ rest := by
  cases pat with
  | nil => exact absurd rfl hne
  | cons c cs =>
    have hpre : (c :: cs).isPrefixOf (c :: (cs ++ rest)) = true := by
      rw [List.isPrefixOf_iff_prefix, ← List.cons_append]
      exact List.prefix_append _ _
    show jsReplaceOnceAux (c :: cs) repl (c :: (cs ++ rest)) = repl ++ rest
    rw [jsReplaceOnceAux]
    simp [hpre, List.drop_left]

lemma jsReplaceOnceAux_no_occurrence (pat repl : List Char) :
    ∀ s : List Char, listHasInfix pat s = false → jsReplaceOnceAux pat repl s = s := by
  intro s
  induction s with
  | nil =>
    intro h
    rw [listHasInfix] at h
    rw [jsReplaceOnceAux, if_neg]
    intro hc
    rw [hc] at h
    simp at h
  | cons c cs ih =>
    intro h
    rw [listHasInfix, Bool.or_eq_false_iff] at h
    rw [jsReplaceOnceAux, if_neg (by simp [h.1]), ih h.2]

lemma jsReplace_of_prefix (pat rest : String) (hdata : pat.data ≠ []) :
    jsReplace pat "" (pat ++ rest) = rest := by
  rw [jsReplace]
  show String.mk (jsReplaceOnceAux pat.data [] (pat ++ rest).data) = rest
  have hd : (pat ++ rest).data = pat.data ++ rest.data := String.data_append pat rest
  rw [hd, jsReplaceOnceAux_prefix pat.data [] rest.data hdata]
  cases rest with
  | mk l => rfl

lemma jsReplace_of_no_occurrence (pat s : String) (h : jsIncludes s pat = false) :
    jsReplace pat "" s = s := by
  rw [jsReplace]
  rw [jsIncludes] at h
  rw [jsReplaceOnceAux_no_occurrence pat.data [] s.data h]

/-! ## C1: the metadata resolution entry point never throws -/

/-- C1: for every input string `url` and every fetch outcome,
`fetchMetadata` returns a `LinkMetadata` value: the decoded response on
success, and on any internal failure exactly the universal fallback record
`{ url, title: domain, description: absent, imageUrl: absent,
favicon: default-favicon-service(domain), domain }`, where the domain is
derived from the URL (`'unknown'` for unparseable input such as the empty
string or garbage). -/
theorem fetchMetadata_never_throws_universal_fallback :
    ∀ (url : String) (eff : ClientFetchOutcome),
      (∀ m, eff = .success m → fetchMetadata eff url = m) ∧
      (eff = .failure →
        fetchMetadata eff url =
          { url := url
            title := clientFallbackDomain url
            description := none
            imageUrl := none
            favicon := some (defaultFaviconService (clientFallbackDomain url))
            domain := clientFallbackDomain url }) := by
  intro url eff
  constructor
  · intro m hm
    subst hm
    rfl
  · intro hf
    subst hf
    rfl

/-- Witness for C1 at the concrete failing input `""` (empty string): the
result is the universal fallback with the `'unknown'` domain placeholder. -/
theorem fetchMetadata_never_throws_universal_fallback_witness :
    fetchMetadata .failure "" =
      { url := ""
        title := "unknown"
        description := none
        imageUrl := none
        favicon := some "https://www.google.com/s2/favicons?domain=unknown&sz=64"
        domain := "unknown" } := by
  have h := (fetchMetadata_never_throws_universal_fallback "" .failure).2 rfl
  rw [h]
  rfl

/-! ## C4: the staleness policy -/

/-- A link whose metadata was fetched exactly `days` days before `now`,
with the explicit refresh flag clear. -/
def agedLink (now days : Int) : Link :=
  ⟨"link", "https://example.com", "title", none, none, none, "example.com",
   0, 0, 0, 0, 0, some (now - days * 86400000), false⟩

lemma stale_division_iff (a : Int) :
    (((a : ℚ) / (1000 * 60 * 60 * 24) > METADATA_STALE_DAYS) ↔ 7 * 86400000 < a) := by
  rw [METADATA_STALE_DAYS, gt_iff_lt,
    lt_div_iff₀ (by norm_num : (0 : ℚ) < 1000 * 60 * 60 * 24)]
  constructor
  · intro h
    have h' : ((7 * 86400000 : Int) : ℚ) < (a : ℚ) := by push_cast; linarith
    exact_mod_cast h'
  · intro h
    have h' : ((7 * 86400000 : Int) : ℚ) < (a : ℚ) := by exact_mod_cast h
    push_cast at h'
    linarith

/-- Exact characterization of the staleness check of the source. -/
lemma needsMetadataRefresh_true_iff (now : Int) (link : Link) :
    needsMetadataRefresh now link = true ↔
      link.needsMetadataRefresh = true ∨ link.metadataFetchedAt = none ∨
      (∃ t, link.metadataFetchedAt = some t ∧ 7 * 86400000 < now - t) := by
  rw [needsMetadataRefresh]
  by_cases hflag : link.needsMetadataRefresh
  · simp [hflag]
  · simp only [hflag, if_false, Bool.false_eq_true, false_or]
    cases hfetch : link.metadataFetchedAt with
    | none => simp
    | some t =>
      simp only [reduceCtorEq, false_or, decide_eq_true_eq]
      rw [stale_division_iff (now - t)]
      constructor
      · intro h
        exact ⟨t, rfl, h⟩
      · rintro ⟨t', ht', hlt⟩
        cases ht'
        exact hlt

lemma needsMetadataRefresh_agedLink_eight (now : Int) :
    needsMetadataRefresh now (agedLink now 8) = true := by
  rw [needsMetadataRefresh_true_iff]
  exact Or.inr (Or.inr ⟨now - 8 * 86400000, rfl, by linarith⟩)

lemma needsMetadataRefresh_agedLink_six (now : Int) :
    needsMetadataRefresh now (agedLink now 6) = false := by
  have h := needsMetadataRefresh_true_iff now (agedLink now 6)
  rcases hb : needsMetadataRefresh now (agedLink now 6) with _ | _
  · rfl
  · rw [hb] at h
    rcases h.mp rfl with hf | hn | ⟨t, ht, hlt⟩
    · exact absurd hf (by rw [agedLink]; simp)
    · exact absurd hn (by rw [agedLink]; simp)
    · rw [agedLink] at ht
      simp only [Option.some.injEq] at ht
      rw [← ht] at hlt
      linarith

/-- C4: `needsMetadataRefresh` is a pure function of the link state (and
the clock) that returns `true` exactly when the explicit flag is set, or
`metadataFetchedAt` is absent, or `now - metadataFetchedAt` exceeds 7 days
(in milliseconds); in particular it is `true` for a link fetched exactly 8
days in the past and `false` for one fetched exactly 6 days in the past. -/
theorem needsMetadataRefresh_staleness_boundary :
    (∀ (now : Int) (link : Link),
      needsMetadataRefresh now link = true ↔
        link.needsMetadataRefresh = true ∨ link.metadataFetchedAt = none ∨
        (∃ t, link.metadataFetchedAt = some t ∧ 7 * 86400000 < now - t)) ∧
    (∀ now : Int, needsMetadataRefresh now (agedLink now 8) = true) ∧
    (∀ now : Int, needsMetadataRefresh now (agedLink now 6) = false) :=
  ⟨needsMetadataRefresh_true_iff, needsMetadataRefresh_agedLink_eight,
   needsMetadataRefresh_agedLink_six⟩

/-! ## C7: domain derivation and the `www.` prefix -/

/-- C7 counterexample: the code removes the FIRST occurrence of the literal
`'www.'` anywhere in the host, not only a leading one.  For the absolute
URL `https://www.www.example.com/` the derived domain still has a leading
`www.`, and for `https://blog.www.example.com/` a non-leading `www.` is
stripped — both contradicting the claim. -/
theorem getDomainFromUrl_www_counterexample :
    getDomainFromUrl "https://www.www.example.com/" = "www.example.com" ∧
    "www.".data.isPrefixOf ("www.example.com").data = true ∧
    getDomainFromUrl "https://blog.www.example.com/" = "blog.example.com" := by
  refine ⟨by rfl, by rfl, by rfl⟩

/-- C7 (amended): the domain is the URL hostname (lowercased by URL
parsing) with the FIRST occurrence of the literal `'www.'` removed, wherever
it occurs; in particular a host that starts with `www.` loses that prefix
and a host not containing `www.` at all is returned unchanged. -/
theorem getDomainFromUrl_strips_first_www :
    ∀ (url : String) (u : URLRec), parseURL url = some u →
      getDomainFromUrl url = jsReplace "www." "" u.hostname ∧
      (∀ rest, u.hostname = "www." ++ rest → getDomainFromUrl url = rest) ∧
      (jsIncludes u.hostname "www." = false → getDomainFromUrl url = u.hostname) := by
  intro url u h
  have hbase : getDomainFromUrl url = jsReplace "www." "" u.hostname := by
    rw [getDomainFromUrl, h]
  refine ⟨hbase, ?_, ?_⟩
  · intro rest hrest
    rw [hbase, hrest]
    exact jsReplace_of_prefix "www." rest (by decide)
  · intro hno
    rw [hbase]
    exact jsReplace_of_no_occurrence "www." u.hostname hno

/-- Witness for C7 (amended) at `https://www.example.com/a`: the leading
`www.` is stripped. -/
theorem getDomainFromUrl_strips_first_www_witness :
    getDomainFromUrl "https://www.example.com/a" = "example.com" := by
  have h := (getDomainFromUrl_strips_first_www "https://www.example.com/a"
    ⟨"https", "www.example.com", ""⟩ (by rfl)).2.1 "example.com" (by rfl)
  exact h

/-! ## C5: platform classification -/

/-- C5 counterexample: the dispatch chain tests its host patterns against
the FULL url string, not against the host.  The validated URL
`https://example.org/a?ref=youtube.com` has host `example.org` — which
matches no platform pattern, so host-substring matching would classify it
`generic` — yet the code classifies it `videoHost` because the pattern
occurs in the query string. -/
theorem classifyUrl_not_host_substring_counterexample :
    parseURL "https://example.org/a?ref=youtube.com" =
      some ⟨"https", "example.org", "ref=youtube.com"⟩ ∧
    classifyUrl "https://example.org/a?ref=youtube.com" = Strategy.videoHost ∧
    specHostSubstringClassify "example.org" = Strategy.generic := by
  refine ⟨by rfl, by rfl, by rfl⟩

/-- C5 (amended): classification is deterministic, total and
side-effect-free — every URL string (in particular every validated URL)
maps to exactly one of the four strategies — and it equals first-match-wins
matching of the fixed platform patterns IN THE FULL URL STRING (not the
host), in the priority order VideoHost → ForumDiscussion → SocialShortForm
→ Generic fallback. -/
theorem classifyUrl_first_match_priority :
    ∀ url : String, classifyUrl url = firstMatchClassify url := by
  intro url
  rw [classifyUrl, firstMatchClassify, strategyPatterns]
  simp only [List.find?_cons, List.any_cons, List.any_nil, Bool.or_false, ← Bool.or_assoc]
  cases h1 : jsIncludes url "youtube.com" || jsIncludes url "youtu.be" with
  | true => simp [h1]
  | false =>
    simp only [h1, Bool.false_eq_true, if_false]
    cases h2 : jsIncludes url "reddit.com" || jsIncludes url "www.reddit.com" with
    | true => simp [h2]
    | false =>
      simp only [h2, Bool.false_eq_true, if_false]
      cases h3 : jsIncludes url "x.com" || jsIncludes url "twitter.com" ||
          jsIncludes url "www.x.com" || jsIncludes url "www.twitter.com" with
      | true => simp [h3]
      | false => simp [h3]

/-! ## C8: YouTube video-id extraction -/

/-- C8: for the input `https://youtu.be/dQw4w9WgXcQ` the video-host
extractor extracts the identifier `dQw4w9WgXcQ`; an extraction that yields
no identifier (from any of the three recognized URL shapes) makes
`fetchYouTubeMetadata` fail with the strategy-specific `InvalidURL`-class
error regardless of the oEmbed outcome; and the extracted identifier occurs
in the oEmbed request URL the extractor builds. -/
theorem youTubeVideoId_extraction_and_oembed :
    extractYouTubeVideoId "https://youtu.be/dQw4w9WgXcQ" = .ok "dQw4w9WgXcQ" ∧
    (∀ (o : OembedOutcome) (url : String),
      extractYouTubeVideoId url = .ok "" →
      fetchYouTubeMetadata o url = .error "Invalid YouTube URL") ∧
    jsIncludes (youTubeOembedUrl "https://youtu.be/dQw4w9WgXcQ") "dQw4w9WgXcQ" = true := by
  refine ⟨by rfl, ?_, by decide⟩
  intro o url h
  rw [fetchYouTubeMetadata.eq_def, h]
  rfl

/-- Witness for C8 at the id-less short link `https://youtu.be/`: the
extractor yields an empty identifier and the strategy fails with its
`InvalidURL`-class error. -/
theorem youTubeVideoId_extraction_and_oembed_witness :
    fetchYouTubeMetadata (.netError "offline") "https://youtu.be/" =
      .error "Invalid YouTube URL" :=
  (youTubeVideoId_extraction_and_oembed).2.1 (.netError "offline")
    "https://youtu.be/" (by rfl)

/-! ## C3, C9, C10: the batch refresher -/

lemma fetchLinkMetadata_always_fails (oracle : Nat → Except String LinkMetadata)
    (e : String) (h : ∀ i, oracle i = .error e) :
    fetchLinkMetadata oracle 0 = (⟨false, none, some e⟩, 4, [1000, 2000, 4000]) := by
  rw [fetchLinkMetadata]
  show fetchLinkMetadataAux oracle 4 0 = _
  simp [fetchLinkMetadataAux, h, MAX_RETRIES, RETRY_DELAYS]

lemma processBatch_single_failure (oracle : Link → Nat → Except String LinkMetadata)
    (e : String) (now : Int) (st : List Link) (link : Link)
    (h : ∀ i, oracle link i = .error e) :
    processBatch oracle now st [link] =
      ⟨updateLinkList st link.id (failureUpdate now),
       [.error (jsOr e "Unknown error") link.id, .progress 1 1], 0, 1, 4⟩ := by
  rw [processBatch]
  show processBatchStep oracle now 1 ⟨st, [], 0, 0, 0⟩ link = _
  rw [processBatchStep, fetchLinkMetadata_always_fails (oracle link) e h]
  rfl

/-- C3: for a link whose per-item fetch always fails, the fetch is
attempted exactly 4 times (1 initial + 3 retries) with inter-attempt delays
1000 ms, 2000 ms, 4000 ms (the delay index is clamped to the retry table
length), and the item is then reported failed through the error callback
while its `needsMetadataRefresh` flag is cleared and its
`metadataFetchedAt` timestamp is stamped. -/
theorem retryExhaustion_four_attempts :
    ∀ (oracle : Link → Nat → Except String LinkMetadata) (e : String) (link : Link),
      (∀ i, oracle link i = .error e) →
      fetchLinkMetadata (oracle link) 0 =
        (⟨false, none, some e⟩, 4, [1000, 2000, 4000]) ∧
      ∀ (now : Int) (st : List Link),
        processBatch oracle now st [link] =
          ⟨updateLinkList st link.id (failureUpdate now),
           [.error (jsOr e "Unknown error") link.id, .progress 1 1], 0, 1, 4⟩ := by
  intro oracle e link h
  exact ⟨fetchLinkMetadata_always_fails (oracle link) e h,
    fun now st => processBatch_single_failure oracle e now st link h⟩

/-- Witness for C3 with a concretely always-failing oracle: 4 attempts,
delays 1000/2000/4000 ms, result reported failed. -/
theorem retryExhaustion_four_attempts_witness :
    fetchLinkMetadata ((fun _ _ => Except.error "network down") (agedLink 0 8)) 0 =
      (⟨false, none, some "network down"⟩, 4, [1000, 2000, 4000]) :=
  (retryExhaustion_four_attempts (fun _ _ => Except.error "network down")
    "network down" (agedLink 0 8) (fun _ => rfl)).1

/-- C9: an exhausted-failure refresh attempt writes only the
`needsMetadataRefresh` flag (to `false`) and the `metadataFetchedAt`
timestamp of the targeted link: the record-update form `{ l with ... }`
shows every other field of the matched link (title, description, imageUrl,
favicon, domain and the position fields) unchanged, and every link with a
different id is returned unmodified. -/
theorem exhaustedFailure_frame :
    (∀ (links : List Link) (id : String) (now : Int),
      updateLinkList links id (failureUpdate now) =
        links.map (fun l =>
          if l.id = id then
            { l with needsMetadataRefresh := false, metadataFetchedAt := some now }
          else l)) ∧
    (∀ (oracle : Link → Nat → Except String LinkMetadata) (e : String)
       (now : Int) (st : List Link) (link : Link),
      (∀ i, oracle link i = .error e) →
      (processBatch oracle now st [link]).state =
        st.map (fun l =>
          if l.id = link.id then
            { l with needsMetadataRefresh := false, metadataFetchedAt := some now }
          else l)) := by
  constructor
  · intro links id now
    rfl
  · intro oracle e now st link h
    rw [processBatch_single_failure oracle e now st link h]
    rfl

/-- Witness for C9 on a two-link store: the untargeted link `"a"` is
byte-for-byte unchanged; the targeted link `"b"` changes only in its flag
and timestamp. -/
theorem exhaustedFailure_frame_witness :
    (processBatch (fun _ _ => Except.error "down") 5
        [⟨"a", "https://a.com", "A", some "da", none, none, "a.com",
          1, 2, 3, 4, 9, some 100, false⟩,
         ⟨"b", "https://b.com", "B", none, some "ib", some "fb", "b.com",
          5, 6, 7, 8, 2, none, true⟩]
        [⟨"b", "https://b.com", "B", none, some "ib", some "fb", "b.com",
          5, 6, 7, 8, 2, none, true⟩]).state =
      [⟨"a", "https://a.com", "A", some "da", none, none, "a.com",
        1, 2, 3, 4, 9, some 100, false⟩,
       ⟨"b", "https://b.com", "B", none, some "ib", some "fb", "b.com",
        5, 6, 7, 8, 2, some 5, false⟩] := by
  rw [exhaustedFailure_frame.2 (fun _ _ => Except.error "down") "down" 5 _ _
    (fun _ => rfl)]
  rfl

/-- C10: a refresh run over a collection with an empty candidate set fires
the completion callback exactly once with `(0, 0)`, makes no fetch attempt,
leaves the store untouched, and fires no progress or error callback. -/
theorem refreshMetadata_no_candidates :
    ∀ (oracle : Link → Nat → Except String LinkMetadata) (now : Int)
      (state links : List Link),
      links.filter (needsMetadataRefresh now) = [] →
      refreshMetadata oracle now state links = ⟨state, [.complete 0 0], 0, 0, 0⟩ := by
  intro oracle now state links h
  rw [refreshMetadata]
  simp [h]

/-- Witness for C10 on a one-link collection whose metadata is 6 days old
(fresh): no callbacks but one `(0, 0)` completion, zero fetch attempts, the
store unchanged. -/
theorem refreshMetadata_no_candidates_witness :
    refreshMetadata (fun _ _ => Except.error "offline") 0
        [agedLink 0 6] [agedLink 0 6] =
      ⟨[agedLink 0 6], [.complete 0 0], 0, 0, 0⟩ :=
  refreshMetadata_no_candidates (fun _ _ => Except.error "offline") 0
    [agedLink 0 6] [agedLink 0 6]
    (by simp [List.filter, needsMetadataRefresh_agedLink_six])

/-! ## C2: batch orchestration and progress callbacks -/

lemma progressPairs_append (a b : List REvent) :
    progressPairs (a ++ b) = progressPairs a ++ progressPairs b := by
  rw [progressPairs, progressPairs, progressPairs, List.filterMap_append]

lemma countComplete_append (a b : List REvent) :
    countComplete (a ++ b) = countComplete a + countComplete b := by
  rw [countComplete, countComplete, countComplete, List.filterMap_append,
    List.length_append]

lemma processBatchStep_spec (oracle : Link → Nat → Except String LinkMetadata)
    (now : Int) (total : Nat) (acc : BatchResult) (l : Link) :
    progressPairs (processBatchStep oracle now total acc l).events =
      progressPairs acc.events ++ [(acc.success + acc.failed + 1, total)] ∧
    (processBatchStep oracle now total acc l).success +
      (processBatchStep oracle now total acc l).failed =
      acc.success + acc.failed + 1 ∧
    countComplete (processBatchStep oracle now total acc l).events =
      countComplete acc.events := by
  rcases hf : fetchLinkMetadata (oracle l) 0 with ⟨r, n, ds⟩
  rcases r with ⟨success, metadata, error⟩
  cases success with
  | true =>
    cases metadata with
    | some m =>
      have hstep : processBatchStep oracle now total acc l =
          { state := updateLinkList acc.state l.id (metadataUpdate l m now)
            events := acc.events ++ [.progress (acc.success + 1 + acc.failed) total]
            success := acc.success + 1
            failed := acc.failed
            attempts := acc.attempts + n } := by
        rw [processBatchStep, hf]
      refine ⟨?_, ?_, ?_⟩
      · rw [hstep]
        show progressPairs
          (acc.events ++ [.progress (acc.success + 1 + acc.failed) total]) = _
        rw [progressPairs_append, Nat.add_right_comm acc.success 1 acc.failed]
        rfl
      · rw [hstep]
        show acc.success + 1 + acc.failed = acc.success + acc.failed + 1
        omega
      · rw [hstep]
        show countComplete
          (acc.events ++ [.progress (acc.success + 1 + acc.failed) total]) = _
        rw [countComplete_append]
        rfl
    | none =>
      have hstep : processBatchStep oracle now total acc l =
          { state := updateLinkList acc.state l.id (failureUpdate now)
            events := acc.events ++
              [.error (jsOrOpt error "Unknown error") l.id,
               .progress (acc.success + (acc.failed + 1)) total]
            success := acc.success
            failed := acc.failed + 1
            attempts := acc.attempts + n } := by
        rw [processBatchStep, hf]
      refine ⟨?_, ?_, ?_⟩
      · rw [hstep]
        show progressPairs (acc.events ++
          [.error (jsOrOpt error "Unknown error") l.id,
           .progress (acc.success + (acc.failed + 1)) total]) = _
        rw [progressPairs_append]
        rfl
      · rw [hstep]
        show acc.success + (acc.failed + 1) = acc.success + acc.failed + 1
        omega
      · rw [hstep]
        show countComplete (acc.events ++
          [.error (jsOrOpt error "Unknown error") l.id,
           .progress (acc.success + (acc.failed + 1)) total]) = _
        rw [countComplete_append]
        rfl
  | false =>
    have hstep : processBatchStep oracle now total acc l =
        { state := updateLinkList acc.state l.id (failureUpdate now)
          events := acc.events ++
            [.error (jsOrOpt error "Unknown error") l.id,
             .progress (acc.success + (acc.failed + 1)) total]
          success := acc.success
          failed := acc.failed + 1
          attempts := acc.attempts + n } := by
      rw [processBatchStep, hf]
    refine ⟨?_, ?_, ?_⟩
    · rw [hstep]
      show progressPairs (acc.events ++
        [.error (jsOrOpt error "Unknown error") l.id,
         .progress (acc.success + (acc.failed + 1)) total]) = _
      rw [progressPairs_append]
      rfl
    · rw [hstep]
      show acc.success + (acc.failed + 1) = acc.success + acc.failed + 1
      omega
    · rw [hstep]
      show countComplete (acc.events ++
        [.error (jsOrOpt error "Unknown error") l.id,
         .progress (acc.success + (acc.failed + 1)) total]) = _
      rw [countComplete_append]
      rfl

lemma processBatch_fold_pairs (oracle : Link → Nat → Except String LinkMetadata)
    (now : Int) (total : Nat) :
    ∀ (batch : List Link) (acc : BatchResult),
      progressPairs ((batch.foldl (processBatchStep oracle now total) acc).events) =
        progressPairs acc.events ++
          (List.range batch.length).map
            (fun i => (acc.success + acc.failed + 1 + i, total)) := by
  intro batch
  induction batch with
  | nil =>
    intro acc
    simp
  | cons l t ih =>
    intro acc
    rw [List.foldl_cons, ih (processBatchStep oracle now total acc l)]
    rw [(processBatchStep_spec oracle now total acc l).1]
    simp only [(processBatchStep_spec oracle now total acc l).2.1]
    rw [List.length_cons, List.range_succ_eq_map, List.map_cons, List.map_map,
      List.append_assoc]
    have harg : ((fun i => (acc.success + acc.failed + 1 + i, total)) ∘ Nat.succ) =
        (fun i => (acc.success + acc.failed + 1 + 1 + i, total)) := by
      funext i
      show (acc.success + acc.failed + 1 + (i + 1), total) = _
      congr 1
      omega
    rw [harg]
    simp

lemma processBatch_fold_complete (oracle : Link → Nat → Except String LinkMetadata)
    (now : Int) (total : Nat) :
    ∀ (batch : List Link) (acc : BatchResult),
      countComplete ((batch.foldl (processBatchStep oracle now total) acc).events) =
        countComplete acc.events := by
  intro batch
  induction batch with
  | nil =>
    intro acc
    rfl
  | cons l t ih =>
    intro acc
    rw [List.foldl_cons, ih (processBatchStep oracle now total acc l)]
    exact (processBatchStep_spec oracle now total acc l).2.2

lemma processBatch_pairs (oracle : Link → Nat → Except String LinkMetadata)
    (now : Int) (st : List Link) (b : List Link) :
    progressPairs (processBatch oracle now st b).events =
      (List.range b.length).map (fun i => (i + 1, b.length)) := by
  rw [processBatch, processBatch_fold_pairs]
  show progressPairs [] ++ _ = _
  rw [progressPairs]
  simp only [List.filterMap_nil, List.nil_append]
  have harg : (fun i => (0 + 0 + 1 + i, b.length)) = (fun i => (i + 1, b.length)) := by
    funext i
    congr 1
    omega
  rw [harg]

lemma processBatch_complete (oracle : Link → Nat → Except String LinkMetadata)
    (now : Int) (st : List Link) (b : List Link) :
    countComplete (processBatch oracle now st b).events = 0 := by
  rw [processBatch, processBatch_fold_complete]
  rfl

lemma refreshFold_spec (oracle : Link → Nat → Except String LinkMetadata) (now : Int) :
    ∀ (batches : List (List Link)) (acc : BatchResult),
      progressPairs ((batches.foldl (refreshFoldStep oracle now) acc).events) =
        progressPairs acc.events ++
          (batches.map (fun b =>
            (List.range b.length).map (fun i => (i + 1, b.length)))).flatten ∧
      countComplete ((batches.foldl (refreshFoldStep oracle now) acc).events) =
        countComplete acc.events := by
  intro batches
  induction batches with
  | nil =>
    intro acc
    simp
  | cons b bs ih =>
    intro acc
    rw [List.foldl_cons]
    have hstep_ev : (refreshFoldStep oracle now acc b).events =
        acc.events ++ (processBatch oracle now acc.state b).events := by
      rw [refreshFoldStep]
    constructor
    · rw [(ih (refreshFoldStep oracle now acc b)).1, hstep_ev,
        progressPairs_append, processBatch_pairs]
      simp [List.append_assoc]
    · rw [(ih (refreshFoldStep oracle now acc b)).2, hstep_ev,
        countComplete_append, processBatch_complete]
      omega

lemma chunkListAux_cons (n fuel : Nat) (l : List Link) (hl : l ≠ []) (hn : n ≠ 0) :
    chunkListAux n (fuel + 1) l = l.take n :: chunkListAux n fuel (l.drop n) := by
  cases l with
  | nil => exact absurd rfl hl
  | cons a t => simp [chunkListAux, hn]

lemma chunkListAux_nil (n fuel : Nat) : chunkListAux n fuel [] = [] := by
  cases fuel <;> rfl

lemma chunkList_twelve (c : List Link) (h : c.length = 12) :
    chunkList BATCH_SIZE c =
      [c.take 5, (c.drop 5).take 5, ((c.drop 5).drop 5).take 5] := by
  have h1 : c ≠ [] := by
    intro hc
    rw [hc] at h
    simp at h
  have h2 : c.drop 5 ≠ [] := by
    intro hc
    have := congrArg List.length hc
    rw [List.length_drop, h] at this
    simp at this
  have h3 : (c.drop 5).drop 5 ≠ [] := by
    intro hc
    have := congrArg List.length hc
    rw [List.length_drop, List.length_drop, h] at this
    simp at this
  have h4 : ((c.drop 5).drop 5).drop 5 = [] := by
    apply List.drop_eq_nil_of_le
    rw [List.length_drop, List.length_drop, h]
    omega
  rw [chunkList, BATCH_SIZE, h]
  rw [show (12 : Nat) = 11 + 1 from rfl, chunkListAux_cons 5 11 c h1 (by decide)]
  rw [show (11 : Nat) = 10 + 1 from rfl, chunkListAux_cons 5 10 (c.drop 5) h2 (by decide)]
  rw [show (10 : Nat) = 9 + 1 from rfl,
    chunkListAux_cons 5 9 ((c.drop 5).drop 5) h3 (by decide)]
  rw [h4, chunkListAux_nil]

/-- C2 (amended): over exactly 12 candidate links with batch size 5,
exactly 3 batches run (sizes 5, 5, 2), the progress callback fires exactly
12 times and the completion callback exactly once; but the progress
arguments are PER-BATCH — `processed` restarts at 1 in each batch and
`total` is the current batch length — so the emitted sequence is
`(1,5) … (5,5), (1,5) … (5,5), (1,2), (2,2)`, ending at `(2,2)` rather
than `(12,12)`. -/
theorem batchOrchestration_per_batch_progress :
    ∀ (oracle : Link → Nat → Except String LinkMetadata) (now : Int)
      (state links : List Link),
      (links.filter (needsMetadataRefresh now)).length = 12 →
      (chunkList BATCH_SIZE (links.filter (needsMetadataRefresh now))).map
          List.length = [5, 5, 2] ∧
      progressPairs (refreshMetadata oracle now state links).events =
        [(1, 5), (2, 5), (3, 5), (4, 5), (5, 5),
         (1, 5), (2, 5), (3, 5), (4, 5), (5, 5), (1, 2), (2, 2)] ∧
      (progressPairs (refreshMetadata oracle now state links).events).length = 12 ∧
      countComplete (refreshMetadata oracle now state links).events = 1 := by
  intro oracle now state links h
  have hchunk := chunkList_twelve (links.filter (needsMetadataRefresh now)) h
  have hlens : (chunkList BATCH_SIZE (links.filter (needsMetadataRefresh now))).map
      List.length = [5, 5, 2] := by
    rw [hchunk]
    simp [List.length_take, List.length_drop, h]
  have hne : ¬ ((links.filter (needsMetadataRefresh now)).length = 0) := by
    rw [h]
    omega
  set R := (chunkList BATCH_SIZE (links.filter (needsMetadataRefresh now))).foldl
    (refreshFoldStep oracle now) (⟨state, [], 0, 0, 0⟩ : BatchResult) with hR
  have hrun : refreshMetadata oracle now state links =
      ⟨R.state, R.events ++ [.complete R.success R.failed],
       R.success, R.failed, R.attempts⟩ := by
    rw [refreshMetadata]
    simp only [if_neg hne]
  have hfold := refreshFold_spec oracle now
    (chunkList BATCH_SIZE (links.filter (needsMetadataRefresh now)))
    ⟨state, [], 0, 0, 0⟩
  rw [← hR] at hfold
  have hl1 : ((links.filter (needsMetadataRefresh now)).take 5).length = 5 := by
    simp [List.length_take, h]
  have hl2 : (((links.filter (needsMetadataRefresh now)).drop 5).take 5).length = 5 := by
    simp [List.length_take, List.length_drop, h]
  have hl3 : ((((links.filter (needsMetadataRefresh now)).drop 5).drop 5).take 5).length
      = 2 := by
    simp [List.length_take, List.length_drop, h]
  have hpairs : progressPairs (refreshMetadata oracle now state links).events =
      [(1, 5), (2, 5), (3, 5), (4, 5), (5, 5),
       (1, 5), (2, 5), (3, 5), (4, 5), (5, 5), (1, 2), (2, 2)] := by
    rw [hrun]
    show progressPairs (R.events ++ [REvent.complete R.success R.failed]) = _
    rw [progressPairs_append, hfold.1, hchunk]
    rw [List.map_cons, List.map_cons, List.map_cons, List.map_nil, hl1, hl2, hl3]
    rfl
  refine ⟨hlens, hpairs, by rw [hpairs]; rfl, ?_⟩
  rw [hrun]
  show countComplete (R.events ++ [REvent.complete R.success R.failed]) = 1
  rw [countComplete_append, hfold.2]
  rfl

/-- A concrete candidate link (explicitly flagged for refresh) with a
single-character id derived from `k`. -/
def testLink (k : Nat) : Link :=
  ⟨String.mk [Char.ofNat (65 + k)], "https://example.com/page", "old title",
   none, none, none, "example.com", 0, 0, 0, 0, 0, none, true⟩

/-- Twelve concrete candidate links. -/
def testLinks12 : List Link := (List.range 12).map testLink

/-- A per-item fetch that always succeeds on the first attempt. -/
def alwaysOkOracle : Link → Nat → Except String LinkMetadata :=
  fun _ _ =>
    .ok ⟨"https://example.com/page", "New title", none, none, none, "example.com"⟩

/-- C2 counterexample: a run over exactly 12 candidate links does fire 12
progress callbacks and one completion, but the `(processed, total)`
arguments are per-batch — the emitted sequence is
`(1,5) … (5,5), (1,5) … (5,5), (1,2), (2,2)`: it is not strictly
increasing (it resets after each batch) and it ends at `(2,2)`, not at
`(12,12)`. -/
theorem refreshProgress_counterexample :
    (testLinks12.filter (needsMetadataRefresh 0)).length = 12 ∧
    progressPairs (refreshMetadata alwaysOkOracle 0 testLinks12 testLinks12).events =
      [(1, 5), (2, 5), (3, 5), (4, 5), (5, 5),
       (1, 5), (2, 5), (3, 5), (4, 5), (5, 5), (1, 2), (2, 2)] ∧
    (progressPairs
      (refreshMetadata alwaysOkOracle 0 testLinks12 testLinks12).events).getLast? =
      some (2, 2) ∧
    ((2, 2) : Nat × Nat) ≠ (12, 12) ∧
    ¬ List.Chain' (fun a b : Nat × Nat => a.1 < b.1)
      (progressPairs (refreshMetadata alwaysOkOracle 0 testLinks12 testLinks12).events) := by
  refine ⟨by decide, by decide, by decide, by decide, ?_⟩
  intro hchain
  have hp : progressPairs
      (refreshMetadata alwaysOkOracle 0 testLinks12 testLinks12).events =
      [(1, 5), (2, 5), (3, 5), (4, 5), (5, 5),
       (1, 5), (2, 5), (3, 5), (4, 5), (5, 5), (1, 2), (2, 2)] := by decide
  rw [hp] at hchain
  simp [List.chain'_cons] at hchain

/-- Witness for C2 (amended) at the concrete 12-candidate run. -/
theorem batchOrchestration_per_batch_progress_witness :
    progressPairs (refreshMetadata alwaysOkOracle 0 testLinks12 testLinks12).events =
      [(1, 5), (2, 5), (3, 5), (4, 5), (5, 5),
       (1, 5), (2, 5), (3, 5), (4, 5), (5, 5), (1, 2), (2, 2)] ∧
    countComplete (refreshMetadata alwaysOkOracle 0 testLinks12 testLinks12).events = 1 :=
  ⟨(batchOrchestration_per_batch_progress alwaysOkOracle 0 testLinks12 testLinks12
      (by decide)).2.1,
   (batchOrchestration_per_batch_progress alwaysOkOracle 0 testLinks12 testLinks12
      (by decide)).2.2.2⟩

/-! ## C6: status codes of the `GET /api/metadata` endpoint -/

/-- A throwaway metadata record for instantiating route oracles. -/
def dummyMeta : LinkMetadata :=
  ⟨"https://example.com", "t", none, none, none, "example.com"⟩

/-- A concrete route oracle whose generic path throws. -/
def failingRouteOracle : RouteOracle :=
  ⟨.netError "net down", dummyMeta, dummyMeta, .error "fetch failed"⟩

/-- C6 counterexample: the `!url` check treats a PRESENT-but-empty `url`
parameter (`?url=`) as missing, answering `400 {error: "URL parameter is
required"}` — although the parameter is present and its value is merely not
a parseable URL, for which the claim requires `{error: "Invalid URL
format"}`. -/
theorem GET_empty_param_counterexample :
    GET (some "") failingRouteOracle = ⟨400, .error "URL parameter is required"⟩ ∧
    (some "" : Option String) ≠ none ∧
    parseURL "" = none := by
  refine ⟨by rfl, by simp, by rfl⟩

/-- C6 (amended): `GET` answers `400 {error: "URL parameter is required"}`
exactly when the `url` parameter is missing OR present with an empty value,
`400 {error: "Invalid URL format"}` exactly when the parameter is present,
non-empty and not parseable, and for every parseable parameter it answers
status 200 (never a 5xx): the extractor result on success, and on any
downstream extraction failure the degraded-but-valid fallback record. -/
theorem GET_status_characterization :
    ∀ (p : Option String) (d : RouteOracle),
      (((GET p d).status = 400 ∧
          (GET p d).body = .error "URL parameter is required") ↔
        (p = none ∨ p = some "")) ∧
      (((GET p d).status = 400 ∧ (GET p d).body = .error "Invalid URL format") ↔
        (∃ url, p = some url ∧ url ≠ "" ∧ parseURL url = none)) ∧
      (∀ url u, p = some url → parseURL url = some u →
        (GET p d).status = 200 ∧
        (∀ m, routeResult d url = .ok m → (GET p d).body = .metadata m) ∧
        (∀ e, routeResult d url = .error e →
          (GET p d).body = .metadata (serverFallback url))) := by
  intro p d
  cases p with
  | none =>
    refine ⟨by simp [GET], by simp [GET], ?_⟩
    intro url u hpu
    exact absurd hpu (by simp)
  | some url =>
    by_cases hurl : url = ""
    · subst hurl
      refine ⟨by simp [GET], ?_, ?_⟩
      · constructor
        · intro hb
          have : GET (some "") d = ⟨400, .error "URL parameter is required"⟩ := by rfl
          rw [this] at hb
          simp at hb
        · rintro ⟨url', hu', hne, hparse⟩
          simp only [Option.some.injEq] at hu'
          exact absurd hu'.symm hne
      · intro url' u hpu hparse
        simp only [Option.some.injEq] at hpu
        rw [← hpu] at hparse
        rw [show parseURL "" = none from rfl] at hparse
        exact absurd hparse (by simp)
    · cases hp : parseURL url with
      | none =>
        have hget : GET (some url) d = ⟨400, .error "Invalid URL format"⟩ := by
          rw [GET.eq_def]
          simp [hurl, hp]
        refine ⟨?_, ?_, ?_⟩
        · rw [hget]
          constructor
          · intro hb
            simp at hb
          · rintro (hc | hc)
            · exact absurd hc (by simp)
            · simp only [Option.some.injEq] at hc
              exact absurd hc hurl
        · rw [hget]
          constructor
          · intro _
            exact ⟨url, rfl, hurl, hp⟩
          · intro _
            exact ⟨rfl, rfl⟩
        · intro url' u hpu hparse
          simp only [Option.some.injEq] at hpu
          rw [← hpu] at hparse
          rw [hp] at hparse
          exact absurd hparse (by simp)
      | some w =>
        have hget : GET (some url) d =
            (match routeResult d url with
             | .ok m => (⟨200, .metadata m⟩ : GETResponse)
             | .error _ => ⟨200, .metadata (serverFallback url)⟩) := by
          rw [GET.eq_def]
          simp [hurl, hp]
        refine ⟨?_, ?_, ?_⟩
        · rw [hget]
          constructor
          · intro hb
            rcases hr : routeResult d url with m | e <;> rw [hr] at hb <;> simp at hb
          · rintro (hc | hc)
            · exact absurd hc (by simp)
            · simp only [Option.some.injEq] at hc
              exact absurd hc hurl
        · rw [hget]
          constructor
          · intro hb
            rcases hr : routeResult d url with m | e <;> rw [hr] at hb <;> simp at hb
          · rintro ⟨url', hu', hne, hparse⟩
            simp only [Option.some.injEq] at hu'
            rw [← hu'] at hparse
            rw [hp] at hparse
            exact absurd hparse (by simp)
        · intro url' u hpu hparse
          simp only [Option.some.injEq] at hpu
          subst hpu
          refine ⟨?_, ?_, ?_⟩
          · rw [hget]
            rcases hr : routeResult d url with m | e <;> rfl
          · intro m hm
            rw [hget, hm]
          · intro e he
            rw [hget, he]

/-- Witness for C6 (amended): a parseable URL whose generic extraction
throws still gets status 200 with the degraded fallback body. -/
theorem GET_status_characterization_witness :
    (GET (some "https://example.com/x") failingRouteOracle).status = 200 ∧
    (GET (some "https://example.com/x") failingRouteOracle).body =
      .metadata (serverFallback "https://example.com/x") :=
  ⟨((GET_status_characterization (some "https://example.com/x")
      failingRouteOracle).2.2 "https://example.com/x"
      ⟨"https", "example.com", ""⟩ rfl (by rfl)).1,
   ((GET_status_characterization (some "https://example.com/x")
      failingRouteOracle).2.2 "https://example.com/x"
      ⟨"https", "example.com", ""⟩ rfl (by rfl)).2.2 "fetch failed" (by rfl)⟩

end LinkCanvas
